import Mathlib

set_option autoImplicit false

namespace RouteFinder

/-! Shallow embedding of `src/src/main.rs` of hades-RouteFinder.

Machine integers are embedded as `Int`/`Nat` with explicit reduction
mod `2 ^ 32` (for `u32`/`i32`) and mod `2 ^ 64` (for `u64`) where the
Rust code wraps. -/

/-- Cast of a Rust `i32` value (an integer in `[-2^31, 2^31)`) to `u32`:
the two complement bit pattern, i.e. `x as u32`. -/
def toU32 (x : Int) : Nat := (x % (2 ^ 32 : Int)).toNat

/-- Reinterpretation of a `u32` bit pattern as an `i32`, i.e. `r as i32`. -/
def toI32 (n : Nat) : Int := if n < 2 ^ 31 then (n : Int) else (n : Int) - 2 ^ 32

/-- Cast `seed as u64` of an `i32` seed (src/src/main.rs:85): sign-extending
two-complement conversion to an unsigned 64-bit value. -/
def seedToU64 (x : Int) : Nat := (x % (2 ^ 64 : Int)).toNat

/-- Modelled from the spec: the `rng` module defining `SggPcg` is not under
`src/`. Spec section 4.2 says the generator is deterministic and its only
stateful operation `next_word` yields one 32-bit word per call; any such
generator is captured by the stream of words it will produce together with
the number of words consumed so far. `stream n` is the raw `n`-th word
(reduced mod `2 ^ 32` on draw); `pos` counts consumed words. -/
structure SggPcg where
  stream : Nat → Nat
  pos : Nat

/-- Embeds `rng.next_u32()`: draw the next 32-bit word and advance the state
by exactly one consumed word. -/
def next_u32 (rng : SggPcg) : Nat × SggPcg :=
  (rng.stream rng.pos % 2 ^ 32, ⟨rng.stream, rng.pos + 1⟩)

/-- Modelled from the spec: the 64-bit linear-congruential state transition
of `next_word` (spec section 4.2); the concrete constants live in the
missing `rng` module, and no claim below depends on their values, only on
the transition being a fixed pure function of the state. -/
def lcgStep (s : Nat) : Nat :=
  (s * 6364136223846793005 + 1442695040888963407) % 2 ^ 64

/-- Modelled from the spec: the fixed bit-mixing output function of
`next_word` (xorshift then rotate keyed by the high state bits,
spec section 4.2). -/
def outputMix (s : Nat) : Nat :=
  let x := Nat.xor s (s / 2 ^ 18) / 2 ^ 27 % 2 ^ 32
  let rot := s / 2 ^ 59
  (x / 2 ^ rot + x * 2 ^ (32 - rot)) % 2 ^ 32

/-- Modelled from the spec: the word stream produced from a freshly seeded
64-bit state (spec section 4.2): iterate the state transition, mixing each
state into one output word. -/
def lcgState (seed : Nat) : Nat → Nat
  | 0 => lcgStep (seed % 2 ^ 64)
  | n + 1 => lcgStep (lcgState seed n)

/-- Modelled from the spec: `SggPcg::new(seed)` (missing `rng` module)
replaces the entire state deterministically as a pure function of the
64-bit seed alone (spec section 4.2), embedded as the seeded word stream
with zero words consumed. -/
def SggPcg.new (seed : Nat) : SggPcg :=
  ⟨fun n => outputMix (lcgState seed n), 0⟩

/-- Embeds the `randomseed` hook (src/src/main.rs:79-88): a missing seed
defaults to `0`, the seed is sign-extended by `seed as u64`, and the shared
generator is overwritten wholesale with `SggPcg::new(seed as u64)`; the
previous generator state is discarded unread. -/
def randomseed (oSeed : Option Int) (_rng : SggPcg) : SggPcg :=
  SggPcg.new (seedToU64 (Option.getD oSeed 0))

/-- Embeds `bound` of `rand_int` (src/src/main.rs:164):
`(max as u32).wrapping_sub(min as u32).wrapping_add(1)`. -/
def boundU32 (min max : Int) : Nat :=
  ((toU32 max + 2 ^ 32 - toU32 min) % 2 ^ 32 + 1) % 2 ^ 32

/-- Result of running `bounded` / `rand_int`: `panic` marks the arithmetic
panic raised by `(u32::MAX - bound + 1) % bound` when `bound = 0` (add
overflow under debug assertions, remainder by zero in release — a panic
either way); `spin` marks exhaustion of the fuel bounding the embedded
rejection loop (the Rust loop just keeps drawing); `ok` carries the result
and the generator state after the call. -/
inductive RandOut (α : Type) where
  | panic : RandOut α
  | spin : RandOut α
  | ok : α → SggPcg → RandOut α

/-- Embeds the rejection loop of `bounded` (src/src/main.rs:174-179): draw
words until one is `>= threshold`, then return `r % bound`; `fuel` bounds
how many draws the embedding inspects. -/
def boundedLoop (bound threshold : Nat) : SggPcg → Nat → RandOut Nat
  | _, 0 => .spin
  | rng, fuel + 1 =>
    let d := next_u32 rng
    if threshold ≤ d.1 then .ok (d.1 % bound) d.2
    else boundedLoop bound threshold d.2 fuel

/-- Embeds `bounded` (src/src/main.rs:171-180). For `bound >= 1` the Rust
expression `(u32::MAX - bound + 1) % bound` involves no overflow and equals
`(2 ^ 32 - bound) % bound`; for `bound = 0` it panics, embedded as
`.panic`. -/
def bounded (rng : SggPcg) (bound : Nat) (fuel : Nat) : RandOut Nat :=
  if bound = 0 then .panic
  else boundedLoop bound ((2 ^ 32 - bound) % bound) rng fuel

/-- Embeds `rand_int` (src/src/main.rs:162-169): when `max > min`, draw via
`bounded` with the wrapped bound and combine with `min.wrapping_add(r as i32)`
(performed on the `u32` bit patterns below, which is the same operation);
otherwise return `min` without touching the generator. -/
def rand_int (rng : SggPcg) (min max : Int) (fuel : Nat) : RandOut Int :=
  if min < max then
    match bounded rng (boundU32 min max) fuel with
    | .panic => .panic
    | .spin => .spin
    | .ok r rng2 => .ok (toI32 ((toU32 min + r) % 2 ^ 32)) rng2
  else .ok min rng

/-- Embeds `rand_double` (src/src/main.rs:182-184): draw one word `w` and
scale it by `ldexp(w as f64, -32)`. Every `w < 2 ^ 32 ≤ 2 ^ 53` is exactly
representable in `f64` and `ldexp` by `-32` only shifts the exponent, so
the `f64` result is exactly the rational `w / 2 ^ 32`; the embedding
computes that rational. -/
def rand_double (rng : SggPcg) : ℚ × SggPcg :=
  let d := next_u32 rng
  ((d.1 : ℚ) / 2 ^ 32, d.2)

/-- Embeds the `randomgaussian` hook (src/src/main.rs:99-102): the closure
returns the constant `0.0` and never borrows the shared generator. -/
def randomgaussian (rng : SggPcg) : ℚ × SggPcg := (0, rng)

/-- Embeds the UTF-8 byte-order mark, the bytes of U+FEFF
(src/src/main.rs:151). -/
def BYTE_ORDER_MARK : List Nat := [0xEF, 0xBB, 0xBF]

/-- Embeds the BOM handling of `read_file` (src/src/main.rs:152-159) applied
to the bytes read from disk: drop the first three bytes exactly when they
are the UTF-8 byte-order mark, otherwise return the bytes unchanged. -/
def read_file (file : List Nat) : List Nat :=
  if BYTE_ORDER_MARK.isPrefixOf file then List.drop 3 file else file

end RouteFinder

namespace RouteFinder

/-! Embedding of the save-loading section of `main` (src/src/main.rs:112-145). -/

/-- Record of what the save-loading section of `main` does, step by step: the
blob handed to `lz4::block::decompress`, the buffer handed to `luabins::load`,
whether (and to what) the `RouteFinderSaveFileData` global was set, whether
the injection chunk ran without a Lua error, and whether control reached the
final user-script step. -/
structure PipelineTrace (α : Type) where
  luaStateLz4 : List Nat
  luaState : List Nat
  saveGlobal : Option (List α)
  injectionOk : Bool
  reachedScript : Bool

/-- Embeds the save-loading pipeline of `main` (src/src/main.rs:112-145),
parametric in the three external calls `save::read`,
`lz4::block::decompress` and `luabins::load`, whose modules are not under
`src/`, and in the type `α` of decoded values. On a parse error the blob is
replaced by the empty buffer (line 117); on a decompression error the
decompressed state is replaced by the empty buffer (line 126); on a luabins
decode error the failure is only printed and the global is never set
(line 131). The injection chunk (lines 134-142) iterates
`pairs(RouteFinderSaveFileData)`: under Lua semantics it raises a runtime
error exactly when that global was never set (`pairs` of `nil`), and such an
error propagates out of `exec()?`, aborting the run before the user-script
step (lines 144-145); when the global holds a decoded table sequence the
chunk runs and the user script is reached. -/
def runPipeline {α : Type} (saveRead : Except String (List Nat))
    (decompress : List Nat → Except String (List Nat))
    (luabinsLoad : List Nat → Except String (List α)) : PipelineTrace α :=
  let lz4buf : List Nat :=
    match saveRead with
    | .ok blob => blob
    | .error _ => []
  let st : List Nat :=
    match decompress lz4buf with
    | .ok u => u
    | .error _ => []
  let g : Option (List α) :=
    match luabinsLoad st with
    | .ok vs => some vs
    | .error _ => none
  ⟨lz4buf, st, g, g.isSome, g.isSome⟩

/-- Modelled from the spec: `luabins::load` (the missing `luabins` module)
begins by decoding a leading count field (spec section 4.4); on the empty
buffer that first read already runs past the end of input, so any faithful
decoder fails with a named decode error on the empty buffer. -/
def failsOnEmpty {α : Type} (luabinsLoad : List Nat → Except String (List α)) : Prop :=
  ∃ e, luabinsLoad [] = Except.error e

/-- Decompression stub standing for a run in which `lz4` succeeds and
returns its input, used to instantiate witnesses. -/
def okDecompress : List Nat → Except String (List Nat) := fun b => Except.ok b

/-- Decompression stub standing for a run in which `lz4` fails, used to
instantiate witnesses. -/
def errDecompress : List Nat → Except String (List Nat) := fun _ => Except.error "lz4"

/-- Decoder stub standing for a run in which `luabins::load` fails on every
buffer (in particular on the empty one), used to instantiate witnesses. -/
def errLuabins : List Nat → Except String (List Nat) := fun _ => Except.error "luabins"

/-! Helper lemmas. -/

/-- The rejection loop of `bounded` accepts exactly the first drawn word
that reaches the threshold: if the words at offsets `0, ..., d - 1` are all
below `t` and the word at offset `d` reaches `t`, the loop returns that
word reduced `% b`, having consumed exactly `d + 1` words. -/
theorem boundedLoop_first_accept (b t : Nat) (stream : Nat → Nat) :
    ∀ (d pos fuel : Nat),
      t ≤ stream (pos + d) % 2 ^ 32 →
      (∀ e, e < d → stream (pos + e) % 2 ^ 32 < t) →
      d < fuel →
      boundedLoop b t ⟨stream, pos⟩ fuel =
        RandOut.ok (stream (pos + d) % 2 ^ 32 % b) ⟨stream, pos + d + 1⟩ := by
  intro d
  induction d with
  | zero =>
    intro pos fuel hacc _ hfuel
    obtain ⟨fuel, rfl⟩ : ∃ f, fuel = f + 1 := ⟨fuel - 1, by omega⟩
    simp only [boundedLoop, next_u32]
    rw [if_pos (by simpa using hacc)]
    simp
  | succ d ih =>
    intro pos fuel hacc hrej hfuel
    obtain ⟨fuel, rfl⟩ : ∃ f, fuel = f + 1 := ⟨fuel - 1, by omega⟩
    simp only [boundedLoop, next_u32]
    rw [if_neg (by simpa using Nat.not_le.mpr (hrej 0 (Nat.succ_pos d)))]
    have h1 : pos + (d + 1) = (pos + 1) + d := by omega
    have h2 := ih (pos + 1) fuel
      (by rw [← h1]; exact hacc)
      (by intro e he
          have := hrej (e + 1) (by omega)
          rw [show pos + 1 + e = pos + (e + 1) by omega]
          exact this)
      (by omega)
    rw [h1]
    simpa using h2

/-- Reinterpreting `(min as u32).wrapping_add(k)` back as `i32` is plain
integer addition whenever the mathematical sum stays inside the `i32`
range. -/
theorem toI32_no_wrap (min : Int) (k : Nat) (hmin : -(2 ^ 31) ≤ min)
    (hk : min + k < 2 ^ 31) :
    toI32 ((toU32 min + k) % 2 ^ 32) = min + k := by
  unfold toI32 toU32
  split <;> omega

end RouteFinder

namespace RouteFinder

/-! Claim theorems. -/

/-- C1 (corrected): for 32-bit signed `min < max` other than the single
wrapping pair `(i32::MIN, i32::MAX)`, `rand_int` computes
`bound = max - min + 1` via wrapping `u32` arithmetic and
`threshold = (2 ^ 32 - bound) % bound`, draws words until the first one
`r >= threshold`, and returns `min + (r % bound)` (wrapping addition, which
does not wrap here), consuming exactly the rejected words plus the one
accepted word: the first accepted word, at offset `d`, determines the
result and the final generator position. -/
theorem rand_int_rejection_sampling_first_accepted_word
    (stream : Nat → Nat) (pos : Nat) (min max : Int) (d fuel : Nat)
    (hmin : -(2 ^ 31) ≤ min) (hmax : max < 2 ^ 31)
    (hlt : min < max)
    (hne : ¬(min = -(2 ^ 31) ∧ max = 2 ^ 31 - 1))
    (hacc : (2 ^ 32 - boundU32 min max) % boundU32 min max ≤ stream (pos + d) % 2 ^ 32)
    (hrej : ∀ e, e < d →
      stream (pos + e) % 2 ^ 32 < (2 ^ 32 - boundU32 min max) % boundU32 min max)
    (hfuel : d < fuel) :
    boundU32 min max = (max - min + 1).toNat ∧
    min + (stream (pos + d) % 2 ^ 32 % boundU32 min max : Nat) ≤ max ∧
    rand_int ⟨stream, pos⟩ min max fuel =
      RandOut.ok (min + (stream (pos + d) % 2 ^ 32 % boundU32 min max : Nat))
        ⟨stream, pos + d + 1⟩ := by
  have hb : boundU32 min max = (max - min + 1).toNat ∧ boundU32 min max ≠ 0 := by
    unfold boundU32 toU32
    omega
  have hmod : stream (pos + d) % 2 ^ 32 % boundU32 min max < boundU32 min max :=
    Nat.mod_lt _ (Nat.pos_of_ne_zero hb.2)
  have hle : min + (stream (pos + d) % 2 ^ 32 % boundU32 min max : Nat) ≤ max := by
    omega
  refine ⟨hb.1, hle, ?_⟩
  unfold rand_int
  rw [if_pos hlt]
  unfold bounded
  rw [if_neg hb.2]
  rw [boundedLoop_first_accept _ _ _ d pos fuel hacc hrej hfuel]
  show RandOut.ok (toI32 ((toU32 min + stream (pos + d) % 2 ^ 32 % boundU32 min max) % 2 ^ 32))
      ⟨stream, pos + d + 1⟩ = _
  rw [toI32_no_wrap min _ hmin (by omega)]

/-- C1 witness: with the word stream `0, 1, 2, 3, 4, ...` and range
`[1, 6]`, the bound is `6`, the threshold is `4`, the words `0, 1, 2, 3`
are rejected, and the first accepted word `4` yields `1 + 4 % 6 = 5` with
five words consumed. -/
theorem rand_int_rejection_sampling_first_accepted_word_witness :
    (-(2 ^ 31) : Int) ≤ 1 ∧ (6 : Int) < 2 ^ 31 ∧ (1 : Int) < 6 ∧
    ¬((1 : Int) = -(2 ^ 31) ∧ (6 : Int) = 2 ^ 31 - 1) ∧
    (2 ^ 32 - boundU32 1 6) % boundU32 1 6 ≤ (fun n => n) (0 + 4) % 2 ^ 32 ∧
    (∀ e, e < 4 → (fun n => n) (0 + e) % 2 ^ 32 < (2 ^ 32 - boundU32 1 6) % boundU32 1 6) ∧
    4 < 10 ∧
    (boundU32 1 6 = ((6 : Int) - 1 + 1).toNat ∧
     (1 : Int) + ((fun n => n) (0 + 4) % 2 ^ 32 % boundU32 1 6 : Nat) ≤ 6 ∧
     rand_int ⟨fun n => n, 0⟩ 1 6 10 =
       RandOut.ok ((1 : Int) + ((fun n => n) (0 + 4) % 2 ^ 32 % boundU32 1 6 : Nat))
         ⟨fun n => n, 0 + 4 + 1⟩) :=
  ⟨by decide, by decide, by decide, by decide, by decide, by decide, by decide,
   rand_int_rejection_sampling_first_accepted_word (fun n => n) 0 1 6 4 10
     (by decide) (by decide) (by decide) (by decide) (by decide) (by decide) (by decide)⟩

/-- C1 counterexample: at `min = i32::MIN`, `max = i32::MAX` (which satisfy
`max > min`), the claimed behavior — draw words and return
`min + (r % bound)` — does not happen: `bound` wraps to `0`, the threshold
computation `(u32::MAX - bound + 1) % bound` panics, and `rand_int` returns
no value at all (`.panic` is a different constructor from every `.ok`). -/
theorem rand_int_full_i32_range_panics :
    rand_int ⟨fun n => n, 0⟩ (-(2 ^ 31)) (2 ^ 31 - 1) 5 = RandOut.panic := rfl

/-- C2 (confirmed): when `max <= min`, `rand_int` returns `min` and the
generator state is returned untouched — zero random words are consumed, so
every later draw sees exactly the state from before the call. -/
theorem rand_int_empty_range_returns_min_zero_consumption
    (rng : SggPcg) (min max : Int) (fuel : Nat) (h : max ≤ min) :
    rand_int rng min max fuel = RandOut.ok min rng := by
  unfold rand_int
  rw [if_neg (not_lt.mpr h)]

/-- C2 witness: `rand_int` on the empty range `[5, 3]` returns `5` with the
generator state unchanged. -/
theorem rand_int_empty_range_returns_min_zero_consumption_witness :
    (3 : Int) ≤ 5 ∧ rand_int ⟨fun _ => 0, 0⟩ 5 3 7 = RandOut.ok 5 ⟨fun _ => 0, 0⟩ :=
  ⟨by decide, rand_int_empty_range_returns_min_zero_consumption ⟨fun _ => 0, 0⟩ 5 3 7 (by decide)⟩

/-- C3 (corrected): for every pair of 32-bit signed `min`, `max` other than
the single pair `min = i32::MIN`, `max = i32::MAX`, the bounded draw never
panics: the `bound` wraps safely, and no division or remainder by zero is
performed (in the embedding every such panic surfaces as `.panic`). -/
theorem rand_int_no_panic_except_full_i32_range
    (rng : SggPcg) (min max : Int) (fuel : Nat)
    (hmin1 : -(2 ^ 31) ≤ min) (hmin2 : min < 2 ^ 31)
    (hmax1 : -(2 ^ 31) ≤ max) (hmax2 : max < 2 ^ 31)
    (hne : ¬(min = -(2 ^ 31) ∧ max = 2 ^ 31 - 1)) :
    rand_int rng min max fuel ≠ RandOut.panic := by
  unfold rand_int
  by_cases hlt : min < max
  · rw [if_pos hlt]
    have hb : boundU32 min max ≠ 0 := by
      unfold boundU32 toU32
      omega
    unfold bounded
    rw [if_neg hb]
    have hnp : ∀ (f : Nat) (r : SggPcg),
        boundedLoop (boundU32 min max)
          ((2 ^ 32 - boundU32 min max) % boundU32 min max) r f ≠ RandOut.panic := by
      intro f
      induction f with
      | zero => intro r; simp [boundedLoop]
      | succ f ih =>
        intro r
        simp only [boundedLoop]
        split
        · simp
        · exact ih _
    cases hres : boundedLoop (boundU32 min max)
        ((2 ^ 32 - boundU32 min max) % boundU32 min max) rng fuel with
    | panic => exact absurd hres (hnp fuel rng)
    | spin => simp
    | ok r rng2 => simp
  · rw [if_neg hlt]
    simp

/-- C3 witness: on the range `[0, 5]` the draw does not panic. -/
theorem rand_int_no_panic_except_full_i32_range_witness :
    (-(2 ^ 31) : Int) ≤ 0 ∧ (0 : Int) < 2 ^ 31 ∧ (-(2 ^ 31) : Int) ≤ 5 ∧ (5 : Int) < 2 ^ 31 ∧
    ¬((0 : Int) = -(2 ^ 31) ∧ (5 : Int) = 2 ^ 31 - 1) ∧
    rand_int ⟨fun _ => 0, 0⟩ 0 5 1 ≠ RandOut.panic :=
  ⟨by decide, by decide, by decide, by decide, by decide,
   rand_int_no_panic_except_full_i32_range ⟨fun _ => 0, 0⟩ 0 5 1
     (by decide) (by decide) (by decide) (by decide) (by decide)⟩

/-- C3 counterexample: at `min = i32::MIN`, `max = i32::MAX` the wrapped
bound is `0` and `bounded` performs `(u32::MAX - 0 + 1) % 0`: an arithmetic
panic (remainder by zero), so the claim fails at this pair. -/
theorem bounded_full_i32_range_remainder_by_zero :
    boundU32 (-(2 ^ 31)) (2 ^ 31 - 1) = 0 ∧
    bounded ⟨fun _ => 0, 0⟩ (boundU32 (-(2 ^ 31)) (2 ^ 31 - 1)) 3 = RandOut.panic ∧
    rand_int ⟨fun _ => 0, 0⟩ (-(2 ^ 31)) (2 ^ 31 - 1) 3 = RandOut.panic :=
  ⟨by decide, rfl, rfl⟩

/-- C4 (confirmed): the `randomseed` hook replaces the generator state with
`SggPcg::new(seed as u64)`, a pure function of the seed alone: two calls
with the same seed after arbitrary different histories produce identical
states (hence identical future draw sequences), and the `i32 -> u64` cast
is sign-extending (`seed` for nonnegative seeds, `2 ^ 64 + seed` for
negative ones). -/
theorem randomseed_pure_function_of_seed (seed : Int) (r1 r2 : SggPcg)
    (hlo : -(2 ^ 31) ≤ seed) (hhi : seed < 2 ^ 31) :
    randomseed (some seed) r1 = randomseed (some seed) r2 ∧
    randomseed (some seed) r1 = SggPcg.new (seedToU64 seed) ∧
    (0 ≤ seed → (seedToU64 seed : Int) = seed) ∧
    (seed < 0 → (seedToU64 seed : Int) = 2 ^ 64 + seed) := by
  refine ⟨rfl, rfl, ?_, ?_⟩ <;> (intro h; unfold seedToU64; omega)

/-- C4 witness: reseeding with `-3` after two different histories yields the
same state, namely `SggPcg::new` of the sign-extended seed
`2 ^ 64 - 3`. -/
theorem randomseed_pure_function_of_seed_witness :
    (-(2 ^ 31) : Int) ≤ -3 ∧ (-3 : Int) < 2 ^ 31 ∧
    (randomseed (some (-3)) ⟨fun _ => 0, 0⟩ = randomseed (some (-3)) ⟨fun _ => 1, 9⟩ ∧
     randomseed (some (-3)) ⟨fun _ => 0, 0⟩ = SggPcg.new (seedToU64 (-3)) ∧
     ((0 : Int) ≤ -3 → (seedToU64 (-3) : Int) = -3) ∧
     ((-3 : Int) < 0 → (seedToU64 (-3) : Int) = 2 ^ 64 + -3)) :=
  ⟨by decide, by decide,
   randomseed_pure_function_of_seed (-3) ⟨fun _ => 0, 0⟩ ⟨fun _ => 1, 9⟩ (by decide) (by decide)⟩

/-- C5 (confirmed): `rand_double` consumes exactly one word `w` and returns
exactly the rational value of `ldexp(w as f64, -32)`, namely `w / 2 ^ 32`
(exact in `f64`, see the definition); the result lies in `[0, 1)` for every
generator state, a zero word gives exactly `0`, and the maximal word
`2 ^ 32 - 1` gives `(2 ^ 32 - 1) / 2 ^ 32`, which is strictly below `1`. -/
theorem rand_double_unit_interval_one_word (rng : SggPcg) :
    (rand_double rng).2 = ⟨rng.stream, rng.pos + 1⟩ ∧
    (rand_double rng).1 = ((rng.stream rng.pos % 2 ^ 32 : Nat) : ℚ) / 2 ^ 32 ∧
    0 ≤ (rand_double rng).1 ∧ (rand_double rng).1 < 1 ∧
    (rand_double ⟨fun _ => 0, 0⟩).1 = 0 ∧
    (rand_double ⟨fun _ => 2 ^ 32 - 1, 0⟩).1 = (2 ^ 32 - 1) / 2 ^ 32 ∧
    ((2 ^ 32 - 1 : ℚ) / 2 ^ 32) < 1 := by
  have hlt : rng.stream rng.pos % 2 ^ 32 < 2 ^ 32 := Nat.mod_lt _ (by norm_num)
  refine ⟨rfl, rfl, ?_, ?_, ?_, ?_, by norm_num⟩
  · exact div_nonneg (Nat.cast_nonneg _) (by norm_num)
  · show ((rng.stream rng.pos % 2 ^ 32 : Nat) : ℚ) / 2 ^ 32 < 1
    rw [div_lt_one (by norm_num : (0 : ℚ) < 2 ^ 32)]
    exact_mod_cast hlt
  · norm_num [rand_double, next_u32]
  · norm_num [rand_double, next_u32]

/-- C6 (code bug): when `luabins::load` on the decompressed buffer fails,
`main` only prints the error and never sets the `RouteFinderSaveFileData`
global — it does not substitute an empty value sequence — so the following
injection chunk hits `pairs(nil)`, raises a Lua error, and the run aborts
before the user script. -/
theorem luabins_decode_failure_leaves_global_unset {α : Type}
    (dec : List Nat → Except String (List Nat))
    (lb : List Nat → Except String (List α))
    (blob st : List Nat) (e : String)
    (hdec : dec blob = Except.ok st)
    (hlb : lb st = Except.error e) :
    (runPipeline (Except.ok blob) dec lb).saveGlobal = none ∧
    (runPipeline (Except.ok blob) dec lb).saveGlobal ≠ some [] ∧
    (runPipeline (Except.ok blob) dec lb).injectionOk = false ∧
    (runPipeline (Except.ok blob) dec lb).reachedScript = false := by
  unfold runPipeline
  simp [hdec, hlb]

/-- C6 witness: with decompression the identity and a decoder that rejects
the buffer `[0]`, the global stays unset and the script step is not
reached. -/
theorem luabins_decode_failure_leaves_global_unset_witness :
    okDecompress [0] = Except.ok [0] ∧
    errLuabins [0] = Except.error "luabins" ∧
    ((runPipeline (Except.ok [0]) okDecompress errLuabins).saveGlobal = none ∧
     (runPipeline (Except.ok [0]) okDecompress errLuabins).saveGlobal ≠ some [] ∧
     (runPipeline (Except.ok [0]) okDecompress errLuabins).injectionOk = false ∧
     (runPipeline (Except.ok [0]) okDecompress errLuabins).reachedScript = false) :=
  ⟨rfl, rfl, luabins_decode_failure_leaves_global_unset okDecompress errLuabins [0] [0] "luabins" rfl rfl⟩

/-- C7 (code bug): on a container parse failure or a decompression failure
`main` does substitute the empty byte buffer (confirming the substitution
half of the claim), but execution does not continue to the script step:
the empty buffer reaches `luabins::load`, which rejects it (spec-modelled:
its leading count field cannot be read from an empty buffer), the global
is never set, and the injection chunk aborts the run. -/
theorem parse_or_decompress_failure_substitutes_empty_but_aborts {α : Type}
    (dec : List Nat → Except String (List Nat))
    (lb : List Nat → Except String (List α))
    (blob : List Nat) (pe e1 : String)
    (hdec : dec blob = Except.error e1)
    (hdec0 : ∃ e0, dec [] = Except.error e0)
    (hlb : failsOnEmpty lb) :
    (runPipeline (Except.ok blob) dec lb).luaState = [] ∧
    (runPipeline (Except.ok blob) dec lb).saveGlobal = none ∧
    (runPipeline (Except.ok blob) dec lb).reachedScript = false ∧
    (runPipeline (Except.error pe) dec lb).luaStateLz4 = [] ∧
    (runPipeline (Except.error pe) dec lb).luaState = [] ∧
    (runPipeline (Except.error pe) dec lb).saveGlobal = none ∧
    (runPipeline (Except.error pe) dec lb).reachedScript = false := by
  obtain ⟨e0, hdec0⟩ := hdec0
  obtain ⟨e2, hlb⟩ := hlb
  unfold runPipeline
  simp [hdec, hdec0, hlb]

/-- C7 witness: with a failing decompressor and a decoder faithful to the
spec (failing on the empty buffer), both the parse-failure run and the
decompression-failure run substitute empty buffers, leave the global unset
and never reach the script step. -/
theorem parse_or_decompress_failure_substitutes_empty_but_aborts_witness :
    errDecompress [7] = Except.error "lz4" ∧
    (∃ e0, errDecompress [] = Except.error e0) ∧
    failsOnEmpty errLuabins ∧
    ((runPipeline (Except.ok [7]) errDecompress errLuabins).luaState = [] ∧
     (runPipeline (Except.ok [7]) errDecompress errLuabins).saveGlobal = none ∧
     (runPipeline (Except.ok [7]) errDecompress errLuabins).reachedScript = false ∧
     (runPipeline (Except.error "bad version") errDecompress errLuabins).luaStateLz4 = [] ∧
     (runPipeline (Except.error "bad version") errDecompress errLuabins).luaState = [] ∧
     (runPipeline (Except.error "bad version") errDecompress errLuabins).saveGlobal = none ∧
     (runPipeline (Except.error "bad version") errDecompress errLuabins).reachedScript = false) :=
  ⟨rfl, ⟨"lz4", rfl⟩, ⟨"luabins", rfl⟩,
   parse_or_decompress_failure_substitutes_empty_but_aborts errDecompress errLuabins
     [7] "bad version" "lz4" rfl ⟨"lz4", rfl⟩ ⟨"luabins", rfl⟩⟩

/-- C8 (confirmed): the `randomgaussian` hook returns the constant `0.0`
for every generator state and returns the shared generator state
untouched — it consumes zero random words. -/
theorem randomgaussian_constant_zero_no_consumption (rng : SggPcg) :
    (randomgaussian rng).1 = 0 ∧ (randomgaussian rng).2 = rng := ⟨rfl, rfl⟩

/-- C9 (confirmed): `read_file` removes exactly the first three bytes when
the content starts with the UTF-8 byte-order mark `EF BB BF`, and returns
the content unchanged otherwise. -/
theorem read_file_strips_byte_order_mark (rest file : List Nat)
    (h : BYTE_ORDER_MARK.isPrefixOf file = false) :
    read_file (BYTE_ORDER_MARK ++ rest) = rest ∧ read_file file = file := by
  constructor
  · simp [read_file, BYTE_ORDER_MARK, List.isPrefixOf]
  · simp [read_file, h]

/-- C9 witness: the BOM prefix of `EF BB BF 09` is stripped to `[9]`, and
the BOM-free content `[1, 2]` is returned unchanged. -/
theorem read_file_strips_byte_order_mark_witness :
    BYTE_ORDER_MARK.isPrefixOf [1, 2] = false ∧
    (read_file (BYTE_ORDER_MARK ++ [9]) = [9] ∧ read_file [1, 2] = [1, 2]) :=
  ⟨by decide, read_file_strips_byte_order_mark [9] [1, 2] (by decide)⟩

/-- C10 (confirmed): calling the `randomseed` hook with the seed absent
(`nil`) produces exactly the state of an explicit `randomseed(0)`,
independent of the prior generator state on either side, so all subsequent
draws coincide. -/
theorem randomseed_nil_equals_seed_zero (r1 r2 : SggPcg) :
    randomseed none r1 = randomseed (some 0) r2 ∧
    randomseed none r1 = SggPcg.new (seedToU64 0) := ⟨rfl, rfl⟩

end RouteFinder
